import Mathlib

/-!
# KY-040 rotary encoder sketch: encoder decode, button latch, saturating counter

A shallow embedding of `src/main.cpp` (the global variables, `sweepKnob`, `setup`
and `loop`) and theorems about it.

Modelling conventions.

* `int` is the 32-bit two's-complement integer of the target.  Values are
  carried as `Int`; the arithmetic updates of the sketch
  (`counter += encoderSpeed`, `counter -= encoderSpeed`, the loop variables of
  `sweepKnob`) are reduced with `wrapInt`, the wrap-around of the target's
  add/sub instruction.  (C++ leaves signed overflow undefined; wrap-around is
  what the target computes.  Every theorem that is not a counterexample is
  proved on inputs where no update overflows.)
* The three input pins hold one level each during one iteration of `loop`
  (`Sample`); `digitalRead` reads the level of a pin out of the sample.
* The display (`slider1.setSliderPosition`, `drawRotaryCounter`) is a log of
  calls, `State.sink`, oldest call first.  `drawText`, `tft.*` and
  `slider1.drawSlider` draw static chrome and do not appear in the log.
* `delay` has no effect on the state and is dropped.
* A `for` loop is run with fuel; `none` means the fuel ran out.
-/

namespace KY040

/-! ## Data model -/

/-- Arduino level `LOW`. -/
abbrev LOW : Int := 0

/-- Arduino level `HIGH`. -/
abbrev HIGH : Int := 1

/-- Pin `SW_PIN` of the sketch. -/
abbrev SW_PIN : Nat := 1

/-- Pin `DT_PIN` of the sketch. -/
abbrev DT_PIN : Nat := 2

/-- Pin `CLK_PIN` of the sketch. -/
abbrev CLK_PIN : Nat := 3

/-- Levels of the three encoder pins during one poll (`true` is high). -/
structure Sample where
  clk : Bool
  dt : Bool
  sw : Bool
  deriving DecidableEq, Repr

/-- The `int` a pin level reads as. -/
def level (b : Bool) : Int := if b then HIGH else LOW

/-- Reading of a pin: `digitalRead(pin)` while the pins hold the levels of `x`. -/
def digitalRead (x : Sample) (pin : Nat) : Int :=
  if pin = CLK_PIN then level x.clk
  else if pin = DT_PIN then level x.dt
  else if pin = SW_PIN then level x.sw
  else LOW

/-- A call made to the render sink, with the value passed. -/
inductive SinkCall where
  | setSliderPosition (v : Int)
  | drawRotaryCounter (v : Int)
  deriving DecidableEq, Repr

/-- The global variables of the sketch, and the log of render-sink calls. -/
structure State where
  counter : Int
  currentStateCLK : Int
  lastStateCLK : Int
  btnPressed : Bool
  encoderSpeed : Int
  sink : List SinkCall
  deriving DecidableEq, Repr

/-- Wrap-around of a 32-bit signed `int`. -/
def wrapInt (x : Int) : Int := (x + 2147483648) % 4294967296 - 2147483648

/-- The largest `int`. -/
abbrev INT_MAX : Int := 2147483647

/-- The globals as initialised at power-on, for a configured `encoderSpeed`
(the sketch has `encoderSpeed = 2`); nothing has been drawn yet. -/
def powerOn (encoderSpeed : Int) : State :=
  { counter := 50, currentStateCLK := 0, lastStateCLK := 0, btnPressed := false,
    encoderSpeed := encoderSpeed, sink := [] }

/-! ## Render sink -/

/-- The call `slider1.setSliderPosition(v)`. -/
def setSliderPosition (v : Int) (s : State) : State :=
  { s with sink := s.sink ++ [SinkCall.setSliderPosition v] }

/-- The call `drawRotaryCounter(v)`. -/
def drawRotaryCounter (v : Int) (s : State) : State :=
  { s with sink := s.sink ++ [SinkCall.drawRotaryCounter v] }

/-! ## `sweepKnob` -/

/-- The body shared by the three loops of `sweepKnob`. -/
def sweepBody (i : Int) (s : State) : State :=
  drawRotaryCounter i (setSliderPosition i s)

/-- The loop `for (int i = ..; i >= lo; i -= stepSize) body`. -/
def forDown (stepSize lo : Int) (body : Int → State → State) :
    Nat → Int → State → Option State
  | 0, _, _ => none
  | fuel + 1, i, s =>
    if i ≥ lo then forDown stepSize lo body fuel (wrapInt (i - stepSize)) (body i s)
    else some s

/-- The loop `for (int i = ..; i <= hi; i += stepSize) body`. -/
def forUp (stepSize hi : Int) (body : Int → State → State) :
    Nat → Int → State → Option State
  | 0, _, _ => none
  | fuel + 1, i, s =>
    if i ≤ hi then forUp stepSize hi body fuel (wrapInt (i + stepSize)) (body i s)
    else some s

/-- The function `sweepKnob`: 50 down to 0, 0 up to 100, 100 down to 50. -/
def sweepKnob (fuel : Nat) (s : State) : Option State :=
  let stepSize : Int := 1
  (forDown stepSize 0 sweepBody fuel 50 s).bind fun s =>
  (forUp stepSize 100 sweepBody fuel 0 s).bind fun s =>
  forDown stepSize 50 sweepBody fuel 100 s

/-! ## `setup` -/

/-- The function `setup`, with the pins at the levels of `x`. -/
def setup (fuel : Nat) (s : State) (x : Sample) : Option State :=
  let s := { s with lastStateCLK := digitalRead x CLK_PIN }
  let s := drawRotaryCounter s.counter s
  sweepKnob fuel s

/-! ## `loop` -/

/-- First half of `loop`: read CLK, decode a rising edge, update and draw the
counter, save the CLK state. -/
def loopEncoder (s : State) (x : Sample) : State :=
  let s := { s with currentStateCLK := digitalRead x CLK_PIN }
  let s :=
    if s.currentStateCLK ≠ s.lastStateCLK ∧ s.currentStateCLK = 1 then
      let s :=
        if digitalRead x DT_PIN ≠ s.currentStateCLK then
          let s := { s with counter := wrapInt (s.counter + s.encoderSpeed) }
          if s.counter > 100 then { s with counter := 100 } else s
        else
          let s := { s with counter := wrapInt (s.counter - s.encoderSpeed) }
          if s.counter < 0 then { s with counter := 0 } else s
      let s := setSliderPosition s.counter s
      drawRotaryCounter s.counter s
    else s
  { s with lastStateCLK := s.currentStateCLK }

/-- Second half of `loop`: the button. -/
def loopButton (s : State) (x : Sample) : State :=
  if digitalRead x SW_PIN = LOW ∧ ¬ s.btnPressed then
    let s := { s with btnPressed := true }
    let s := { s with counter := 50 }
    let s := setSliderPosition s.counter s
    drawRotaryCounter s.counter s
  else if digitalRead x SW_PIN = HIGH ∧ s.btnPressed then
    { s with btnPressed := false }
  else s

/-- One iteration of `loop`. -/
def loop (s : State) (x : Sample) : State :=
  loopButton (loopEncoder s x) x

/-! ## Runs of `loop` -/

/-- The state after feeding the samples `xs` to `loop`, one per iteration. -/
def run (s : State) (xs : List Sample) : State := xs.foldl loop s

/-- The states observed at the end of each iteration, in order. -/
def observe : State → List Sample → List State
  | _, [] => []
  | s, x :: xs => loop s x :: observe (loop s x) xs

/-- The state at the start of iteration `k` (after `k` iterations). -/
def stateAt (s : State) (xs : List Sample) (k : Nat) : State := run s (xs.take k)

/-- The test of the rotation branch of `loop`: a rising CLK edge is seen. -/
def risingEdge (s : State) (x : Sample) : Bool :=
  decide (digitalRead x CLK_PIN ≠ s.lastStateCLK ∧ digitalRead x CLK_PIN = 1)

/-- The test of the reset-to-50 branch of `loop`. -/
def pressFires (s : State) (x : Sample) : Bool :=
  decide (digitalRead x SW_PIN = LOW ∧ ¬ s.btnPressed)

/-! ## Derived quantities used in the statements -/

/-- The reset-to-50 branch runs in the iteration of `loop` from `s` on `x`: its
test holds when control reaches the button half. -/
def resetRuns (s : State) (x : Sample) : Bool := pressFires (loopEncoder s x) x

/-- The iteration of `loop` from `s` on `x` performs a reset, as seen on its
effect: after the encoder half, the iteration makes the two sink calls of the
reset branch, `setSliderPosition(50)` and `drawRotaryCounter(50)`. -/
def resetDone (s : State) (x : Sample) : Bool :=
  decide ((loop s x).sink =
    (loopEncoder s x).sink ++
      [SinkCall.setSliderPosition 50, SinkCall.drawRotaryCounter 50])

/-- Number of iterations of `loop`, over the samples `xs`, that perform a
reset. -/
def resetCount : State → List Sample → Nat
  | _, [] => 0
  | s, x :: xs => (if resetDone s x then 1 else 0) + resetCount (loop s x) xs

/-- Number of high-to-low transitions in a sequence of levels, `prev` being the
level before the first one. -/
def fallingEdges : Bool → List Bool → Nat
  | _, [] => 0
  | prev, b :: bs => (if prev = true ∧ b = false then 1 else 0) + fallingEdges b bs

/-- The pair of sink calls one step makes with the value `v`. -/
def stepCalls (v : Int) : List SinkCall :=
  [SinkCall.setSliderPosition v, SinkCall.drawRotaryCounter v]

/-- The sink calls of a sequence of steps with the values `vs`. -/
def callsOf : List Int → List SinkCall
  | [] => []
  | v :: vs => stepCalls v ++ callsOf vs

/-- `n` consecutive values going down from `i`. -/
def downFrom : Nat → Int → List Int
  | 0, _ => []
  | n + 1, i => i :: downFrom n (i - 1)

/-- `n` consecutive values going up from `i`. -/
def upFrom : Nat → Int → List Int
  | 0, _ => []
  | n + 1, i => i :: upFrom n (i + 1)

/-- The values of the sweep: 50 down to 0, 0 up to 100, 100 down to 50. -/
def sweepValues : List Int := downFrom 51 50 ++ upFrom 101 0 ++ downFrom 51 100

/-- The values passed to `setSliderPosition` in a log, in order. -/
def sliderArgs : List SinkCall → List Int
  | [] => []
  | SinkCall.setSliderPosition v :: cs => v :: sliderArgs cs
  | SinkCall.drawRotaryCounter _ :: cs => sliderArgs cs

/-- The values passed to `drawRotaryCounter` in a log, in order. -/
def counterArgs : List SinkCall → List Int
  | [] => []
  | SinkCall.setSliderPosition _ :: cs => counterArgs cs
  | SinkCall.drawRotaryCounter v :: cs => v :: counterArgs cs

/-- The value most recently passed to `setSliderPosition`, if any. -/
def lastSlider (cs : List SinkCall) : Option Int := (sliderArgs cs).getLast?

/-- The value most recently passed to `drawRotaryCounter`, if any. -/
def lastDraw (cs : List SinkCall) : Option Int := (counterArgs cs).getLast?

/-- The samples of one detent: a poll with CLK low, which re-arms the edge, then
the poll that sees CLK high; sw is high.  With `dtLevel = false` the rising
edge reads clockwise, with `dtLevel = true` counter-clockwise. -/
def tick (dtLevel : Bool) : List Sample :=
  [⟨false, dtLevel, true⟩, ⟨true, dtLevel, true⟩]

/-- The samples of `n` detents in one direction. -/
def ticks (dtLevel : Bool) : Nat → List Sample
  | 0 => []
  | n + 1 => tick dtLevel ++ ticks dtLevel n

/-- Iteration `k` of the run over `xs` sees a rising CLK edge. -/
def edgeAt (s : State) (xs : List Sample) (k : Nat) : Bool :=
  match xs.get? k with
  | some x => risingEdge (stateAt s xs k) x
  | none => false

/-- Iteration `k` of the run over `xs` runs the reset-to-50 branch. -/
def pressAt (s : State) (xs : List Sample) (k : Nat) : Bool :=
  match xs.get? k with
  | some x => resetRuns (stateAt s xs k) x
  | none => false

/-! ## Basic facts -/

theorem wrapInt_eq {x : Int} (h1 : -2147483648 ≤ x) (h2 : x ≤ 2147483647) : wrapInt x = x := by
  unfold wrapInt; omega

theorem loopEncoder_btnPressed (s : State) (x : Sample) :
    (loopEncoder s x).btnPressed = s.btnPressed := by
  simp only [loopEncoder, setSliderPosition, drawRotaryCounter]
  split_ifs <;> rfl

theorem loopEncoder_encoderSpeed (s : State) (x : Sample) :
    (loopEncoder s x).encoderSpeed = s.encoderSpeed := by
  simp only [loopEncoder, setSliderPosition, drawRotaryCounter]
  split_ifs <;> rfl

theorem loopEncoder_lastStateCLK (s : State) (x : Sample) :
    (loopEncoder s x).lastStateCLK = level x.clk := by
  simp only [loopEncoder, setSliderPosition, drawRotaryCounter, digitalRead]
  split_ifs <;> rfl

theorem loopEncoder_idle (s : State) (x : Sample) (h : risingEdge s x = false) :
    (loopEncoder s x).counter = s.counter ∧ (loopEncoder s x).sink = s.sink := by
  simp only [risingEdge, decide_eq_false_iff_not] at h
  simp only [loopEncoder, if_neg h, and_self]

theorem loopEncoder_edge_sink (s : State) (x : Sample) (h : risingEdge s x = true) :
    (loopEncoder s x).sink = s.sink ++
      [SinkCall.setSliderPosition (loopEncoder s x).counter,
       SinkCall.drawRotaryCounter (loopEncoder s x).counter] := by
  simp only [risingEdge, decide_eq_true_eq] at h
  simp only [loopEncoder, if_pos h, setSliderPosition, drawRotaryCounter]
  split_ifs <;> simp

theorem loopEncoder_bounds (s : State) (x : Sample) (h0 : 0 ≤ s.counter)
    (h1 : s.counter ≤ 100) (e1 : 1 ≤ s.encoderSpeed) (e2 : s.encoderSpeed ≤ 2147483547) :
    0 ≤ (loopEncoder s x).counter ∧ (loopEncoder s x).counter ≤ 100 := by
  have ha : wrapInt (s.counter + s.encoderSpeed) = s.counter + s.encoderSpeed :=
    wrapInt_eq (by omega) (by omega)
  have hb : wrapInt (s.counter - s.encoderSpeed) = s.counter - s.encoderSpeed :=
    wrapInt_eq (by omega) (by omega)
  simp only [loopEncoder, setSliderPosition, drawRotaryCounter, ha, hb]
  split_ifs <;> simp only [] <;> omega

theorem loopButton_counter (s : State) (x : Sample) :
    (loopButton s x).counter = if pressFires s x then 50 else s.counter := by
  simp only [loopButton, pressFires, setSliderPosition, drawRotaryCounter, decide_eq_true_eq]
  split_ifs <;> rfl

theorem loopButton_sink (s : State) (x : Sample) :
    (loopButton s x).sink = s.sink ++
      (if pressFires s x then
        [SinkCall.setSliderPosition 50, SinkCall.drawRotaryCounter 50] else []) := by
  simp only [loopButton, pressFires, setSliderPosition, drawRotaryCounter, decide_eq_true_eq]
  split_ifs <;> simp

theorem loopButton_btnPressed (s : State) (x : Sample) :
    (loopButton s x).btnPressed = !x.sw := by
  simp only [loopButton, setSliderPosition, drawRotaryCounter, digitalRead, level]
  cases hx : x.sw <;> cases hb : s.btnPressed <;> simp [hb]

theorem loopButton_encoderSpeed (s : State) (x : Sample) :
    (loopButton s x).encoderSpeed = s.encoderSpeed := by
  simp only [loopButton, setSliderPosition, drawRotaryCounter]
  split_ifs <;> rfl

theorem loopButton_lastStateCLK (s : State) (x : Sample) :
    (loopButton s x).lastStateCLK = s.lastStateCLK := by
  simp only [loopButton, setSliderPosition, drawRotaryCounter]
  split_ifs <;> rfl

theorem loop_encoderSpeed (s : State) (x : Sample) :
    (loop s x).encoderSpeed = s.encoderSpeed := by
  rw [loop, loopButton_encoderSpeed, loopEncoder_encoderSpeed]

theorem loop_bounds (s : State) (x : Sample) (h0 : 0 ≤ s.counter)
    (h1 : s.counter ≤ 100) (e1 : 1 ≤ s.encoderSpeed) (e2 : s.encoderSpeed ≤ 2147483547) :
    0 ≤ (loop s x).counter ∧ (loop s x).counter ≤ 100 := by
  have h := loopEncoder_bounds s x h0 h1 e1 e2
  rw [loop, loopButton_counter]
  split_ifs <;> omega

theorem observe_bounds (xs : List Sample) : ∀ (s : State), 0 ≤ s.counter →
    s.counter ≤ 100 → 1 ≤ s.encoderSpeed → s.encoderSpeed ≤ 2147483547 →
    ∀ t ∈ observe s xs, 0 ≤ t.counter ∧ t.counter ≤ 100 := by
  induction xs with
  | nil => intro s _ _ _ _ t ht; simp [observe] at ht
  | cons x xs ih =>
    intro s h0 h1 e1 e2 t ht
    have hb := loop_bounds s x h0 h1 e1 e2
    simp only [observe, List.mem_cons] at ht
    rcases ht with rfl | ht
    · exact hb
    · exact ih (loop s x) hb.1 hb.2 (by rw [loop_encoderSpeed]; exact e1)
        (by rw [loop_encoderSpeed]; exact e2) t ht

/-! ## The counter stays in range (C1) -/

/-- C1, as stated, fails for a step near the top of `int`: with
`encoderSpeed = 2147483647` one clockwise tick from the power-on state takes
`counter` from 50 past `INT_MAX`, the sum wraps, and it is not clamped. -/
theorem C1_counterexample :
    (1 : Int) ≤ (powerOn 2147483647).encoderSpeed ∧
    (powerOn 2147483647).encoderSpeed ≤ INT_MAX ∧
    (powerOn 2147483647).lastStateCLK = 0 ∧
    (loop (powerOn 2147483647) ⟨true, false, true⟩).counter = -2147483599 := by
  decide

/-- C1 (amended): from the power-on state (counter 50, button released, any
`lastStateCLK` in {0,1}) and for every `encoderSpeed` from 1 to 2147483547
(`INT_MAX - 100`), in particular the default 2, the counter satisfies
`0 ≤ counter ≤ 100` after every iteration of `loop`, for every sequence of
samples. -/
theorem C1_counter_in_range (es l : Int) (xs : List Sample)
    (hes : 1 ≤ es) (hmax : es ≤ 2147483547) (_hl : l = 0 ∨ l = 1) :
    ∀ t ∈ observe { powerOn es with lastStateCLK := l } xs,
      0 ≤ t.counter ∧ t.counter ≤ 100 :=
  observe_bounds xs { powerOn es with lastStateCLK := l } (by simp [powerOn])
    (by simp [powerOn]) hes hmax

/-- Witness of C1 at the default step 2: one clockwise tick from power-on. -/
theorem C1_counter_in_range_witness :
    0 ≤ (loop { powerOn 2 with lastStateCLK := 0 } ⟨true, false, true⟩).counter ∧
    (loop { powerOn 2 with lastStateCLK := 0 } ⟨true, false, true⟩).counter ≤ 100 :=
  C1_counter_in_range 2 0 [⟨true, false, true⟩] (by decide) (by decide) (Or.inl rfl)
    (loop { powerOn 2 with lastStateCLK := 0 } ⟨true, false, true⟩)
    (by simp [observe])

/-! ## One iteration without a press (C2) -/

/-- C2, as stated, fails for a step near the top of `int`: from counter 50 with
`encoderSpeed = 2147483647`, button released and held high, the clockwise
rising edge `(1,0,1)` gives -2147483599, not `min 100 (50 + 2147483647) = 100`. -/
theorem C2_counterexample :
    (powerOn 2147483647).lastStateCLK = 0 ∧
    (loop (powerOn 2147483647) ⟨true, false, true⟩).counter = -2147483599 ∧
    min 100 ((powerOn 2147483647).counter + (powerOn 2147483647).encoderSpeed) = 100 := by
  decide

/-- C2 (amended): for `0 ≤ counter ≤ 100` and `1 ≤ encoderSpeed ≤ 2147483547`, in
an iteration of `loop` in which no press fires (sw high, or `btnPressed`
already true): a rising CLK edge (`lastStateCLK = 0`, `clk = 1`) gives
`min 100 (counter + step)` when `dt ≠ clk` and `max 0 (counter - step)` when
`dt = clk`; a falling edge or a same-level sample leaves the counter unchanged;
and `lastStateCLK` equals `clk` afterwards. -/
theorem C2_rotation_step (s : State) (x : Sample)
    (h0 : 0 ≤ s.counter) (h100 : s.counter ≤ 100)
    (hes : 1 ≤ s.encoderSpeed) (hmax : s.encoderSpeed ≤ 2147483547)
    (hnp : x.sw = true ∨ s.btnPressed = true) :
    (s.lastStateCLK = 0 → x.clk = true → x.dt = false →
        (loop s x).counter = min 100 (s.counter + s.encoderSpeed)) ∧
    (s.lastStateCLK = 0 → x.clk = true → x.dt = true →
        (loop s x).counter = max 0 (s.counter - s.encoderSpeed)) ∧
    (x.clk = false ∨ s.lastStateCLK = level x.clk → (loop s x).counter = s.counter) ∧
    (loop s x).lastStateCLK = level x.clk := by
  have ha : wrapInt (s.counter + s.encoderSpeed) = s.counter + s.encoderSpeed :=
    wrapInt_eq (by omega) (by omega)
  have hb : wrapInt (s.counter - s.encoderSpeed) = s.counter - s.encoderSpeed :=
    wrapInt_eq (by omega) (by omega)
  have hp : pressFires (loopEncoder s x) x = false := by
    simp only [pressFires, loopEncoder_btnPressed, digitalRead, level]
    rcases hnp with h | h <;> simp [h]
  have hc : (loop s x).counter = (loopEncoder s x).counter := by
    rw [loop, loopButton_counter, hp]; rfl
  refine ⟨?_, ?_, ?_, ?_⟩
  · intro hl hclk hdt
    rw [hc]
    simp only [loopEncoder, setSliderPosition, drawRotaryCounter, digitalRead, level, hl, hclk,
      hdt, ha]
    split_ifs
    all_goals simp_all
    all_goals omega
  · intro hl hclk hdt
    rw [hc]
    simp only [loopEncoder, setSliderPosition, drawRotaryCounter, digitalRead, level, hl, hclk,
      hdt, hb]
    split_ifs
    all_goals simp_all
    all_goals omega
  · intro h
    rw [hc]
    refine (loopEncoder_idle s x ?_).1
    simp only [risingEdge, digitalRead, decide_eq_false_iff_not]
    rcases h with h | h
    · simp [h, level]
    · simp [h]
  · rw [loop, loopButton_lastStateCLK, loopEncoder_lastStateCLK]

/-- Witness of C2: the traces named in the claim, with step 2.  From 50,
`(1,0,1)` gives 52 and `(1,1,1)` gives 48; from 99 a CW tick gives 100; from 1 a
CCW tick gives 0; `(0,0,1)` then `(0,1,1)` leave 50. -/
theorem C2_rotation_step_witness :
    (loop (powerOn 2) ⟨true, false, true⟩).counter = 52 ∧
    (loop (powerOn 2) ⟨true, true, true⟩).counter = 48 ∧
    (loop { powerOn 2 with counter := 99 } ⟨true, false, true⟩).counter = 100 ∧
    (loop { powerOn 2 with counter := 1 } ⟨true, true, true⟩).counter = 0 ∧
    (loop (powerOn 2) ⟨false, false, true⟩).counter = 50 ∧
    (loop (loop (powerOn 2) ⟨false, false, true⟩) ⟨false, true, true⟩).counter = 50 ∧
    (loop (powerOn 2) ⟨true, false, true⟩).lastStateCLK = 1 :=
  ⟨((C2_rotation_step (powerOn 2) ⟨true, false, true⟩ (by decide) (by decide) (by decide)
      (by decide) (Or.inl rfl)).1 rfl rfl rfl).trans (by decide),
   ((C2_rotation_step (powerOn 2) ⟨true, true, true⟩ (by decide) (by decide) (by decide)
      (by decide) (Or.inl rfl)).2.1 rfl rfl rfl).trans (by decide),
   ((C2_rotation_step { powerOn 2 with counter := 99 } ⟨true, false, true⟩ (by decide)
      (by decide) (by decide) (by decide) (Or.inl rfl)).1 rfl rfl rfl).trans (by decide),
   ((C2_rotation_step { powerOn 2 with counter := 1 } ⟨true, true, true⟩ (by decide)
      (by decide) (by decide) (by decide) (Or.inl rfl)).2.1 rfl rfl rfl).trans (by decide),
   ((C2_rotation_step (powerOn 2) ⟨false, false, true⟩ (by decide) (by decide) (by decide)
      (by decide) (Or.inl rfl)).2.2.1 (Or.inl rfl)).trans (by decide),
   ((C2_rotation_step (loop (powerOn 2) ⟨false, false, true⟩) ⟨false, true, true⟩
      (by decide) (by decide) (by decide) (by decide) (Or.inl rfl)).2.2.1
      (Or.inl rfl)).trans (by decide),
   ((C2_rotation_step (powerOn 2) ⟨true, false, true⟩ (by decide) (by decide) (by decide)
      (by decide) (Or.inl rfl)).2.2.2).trans (by decide)⟩

/-! ## Press in the same poll as a rotation (C4) -/

/-- C4: with `btnPressed = false` and sw low, one iteration of `loop` ends with
`counter = 50`, whatever the previous counter and whether or not the sample
also carries a rising CLK edge; the rotation half runs first (its counter
update and sink calls come first) and the press then resets the value, draws
50 and latches the button. -/
theorem C4_press_resets (s : State) (x : Sample)
    (hb : s.btnPressed = false) (hsw : x.sw = false) :
    (loop s x).counter = 50 ∧
    (loop s x).btnPressed = true ∧
    (loop s x).sink = (loopEncoder s x).sink ++
      [SinkCall.setSliderPosition 50, SinkCall.drawRotaryCounter 50] := by
  have hp : pressFires (loopEncoder s x) x = true := by
    simp [pressFires, loopEncoder_btnPressed, digitalRead, level, hb, hsw]
  refine ⟨?_, ?_, ?_⟩
  · rw [loop, loopButton_counter, hp]; rfl
  · rw [loop, loopButton_btnPressed, hsw]; rfl
  · rw [loop, loopButton_sink, hp]; rfl

/-- Witness of C4: from counter 60 with `lastStateCLK = 0`, the sample `(1,0,0)`
takes the counter to 62 in the rotation half and the iteration ends at 50. -/
theorem C4_press_resets_witness :
    (loopEncoder { powerOn 2 with counter := 60 } ⟨true, false, false⟩).counter = 62 ∧
    (loop { powerOn 2 with counter := 60 } ⟨true, false, false⟩).counter = 50 ∧
    (loop { powerOn 2 with counter := 60 } ⟨true, false, false⟩).sink =
      [SinkCall.setSliderPosition 62, SinkCall.drawRotaryCounter 62,
       SinkCall.setSliderPosition 50, SinkCall.drawRotaryCounter 50] :=
  ⟨by decide,
   (C4_press_resets { powerOn 2 with counter := 60 } ⟨true, false, false⟩ rfl rfl).1,
   by decide⟩

/-! ## The button latch -/

theorem loop_btnPressed (s : State) (x : Sample) : (loop s x).btnPressed = !x.sw := by
  rw [loop, loopButton_btnPressed]

theorem resetRuns_eq (s : State) (x : Sample) :
    resetRuns s x = (!s.btnPressed && !x.sw) := by
  simp only [resetRuns, pressFires, loopEncoder_btnPressed, digitalRead, level]
  cases x.sw <;> cases s.btnPressed <;> simp

/-! ## Parity with the default step (C9) -/

theorem loop_even (s : State) (x : Sample) (h0 : 0 ≤ s.counter) (h100 : s.counter ≤ 100)
    (hes : s.encoderSpeed = 2) (hev : s.counter % 2 = 0) : (loop s x).counter % 2 = 0 := by
  have ha : wrapInt (s.counter + 2) = s.counter + 2 := wrapInt_eq (by omega) (by omega)
  have hb : wrapInt (s.counter - 2) = s.counter - 2 := wrapInt_eq (by omega) (by omega)
  rw [loop, loopButton_counter]
  split_ifs
  · rfl
  · simp only [loopEncoder, setSliderPosition, drawRotaryCounter, hes, ha, hb]
    split_ifs <;> simp only [] <;> omega

theorem observe_even (xs : List Sample) : ∀ s : State, 0 ≤ s.counter → s.counter ≤ 100 →
    s.encoderSpeed = 2 → s.counter % 2 = 0 → ∀ t ∈ observe s xs, t.counter % 2 = 0 := by
  induction xs with
  | nil => intro s _ _ _ _ t ht; simp [observe] at ht
  | cons x xs ih =>
    intro s h0 h100 hes hev t ht
    have hb := loop_bounds s x h0 h100 (by omega) (by omega)
    have he := loop_even s x h0 h100 hes hev
    simp only [observe, List.mem_cons] at ht
    rcases ht with rfl | ht
    · exact he
    · exact ih (loop s x) hb.1 hb.2 (by rw [loop_encoderSpeed]; exact hes) he t ht

/-- C9: with `encoderSpeed = 2` and the power-on state (counter 50, any
`lastStateCLK`), the counter is even after every iteration of `loop`, for every
sequence of samples: odd values are unreachable. -/
theorem C9_counter_even (l : Int) (xs : List Sample) :
    ∀ t ∈ observe { powerOn 2 with lastStateCLK := l } xs, t.counter % 2 = 0 :=
  observe_even xs { powerOn 2 with lastStateCLK := l } (by simp [powerOn])
    (by simp [powerOn]) rfl (by simp [powerOn])

/-- Witness of C9: after a clockwise tick and a press in the next poll the
counter is even. -/
theorem C9_counter_even_witness :
    (loop (loop { powerOn 2 with lastStateCLK := 0 } ⟨true, false, true⟩)
      ⟨false, false, false⟩).counter % 2 = 0 :=
  C9_counter_even 0 [⟨true, false, true⟩, ⟨false, false, false⟩] _ (by simp [observe])

/-! ## The fixed sweep (C7) -/

theorem callsOf_append (a b : List Int) : callsOf (a ++ b) = callsOf a ++ callsOf b := by
  induction a with
  | nil => rfl
  | cons v vs ih => simp [callsOf, ih]

theorem sliderArgs_callsOf (vs : List Int) : sliderArgs (callsOf vs) = vs := by
  induction vs with
  | nil => rfl
  | cons v vs ih => simp [callsOf, stepCalls, sliderArgs, ih]

theorem counterArgs_callsOf (vs : List Int) : counterArgs (callsOf vs) = vs := by
  induction vs with
  | nil => rfl
  | cons v vs ih => simp [callsOf, stepCalls, counterArgs, ih]

theorem sweepBody_eq (i : Int) (s : State) :
    sweepBody i s = { s with sink := s.sink ++ stepCalls i } := by
  simp [sweepBody, setSliderPosition, drawRotaryCounter, stepCalls]

theorem forDown_sweep (lo : Int) (hlo : -2147483647 ≤ lo) (n : Nat) :
    ∀ (fuel : Nat) (i : Int) (s : State), n < fuel → i = lo + n - 1 → i ≤ 2147483647 →
      forDown 1 lo sweepBody fuel i s =
        some { s with sink := s.sink ++ callsOf (downFrom n i) } := by
  induction n with
  | zero =>
    intro fuel i s hf hi _
    obtain ⟨f, rfl⟩ : ∃ f, fuel = f + 1 := ⟨fuel - 1, by omega⟩
    have hlt : ¬ i ≥ lo := by omega
    simp [forDown, hlt, downFrom, callsOf]
  | succ n ih =>
    intro fuel i s hf hi hmax
    obtain ⟨f, rfl⟩ : ∃ f, fuel = f + 1 := ⟨fuel - 1, by omega⟩
    have hge : i ≥ lo := by omega
    have hw : wrapInt (i - 1) = i - 1 := wrapInt_eq (by omega) (by omega)
    rw [forDown, if_pos hge, hw, ih f (i - 1) (sweepBody i s) (by omega) (by omega) (by omega)]
    simp [sweepBody_eq, downFrom, callsOf, List.append_assoc]

theorem forUp_sweep (top : Int) (htop : top ≤ 2147483646) (n : Nat) :
    ∀ (fuel : Nat) (i : Int) (s : State), n < fuel → i = top - n + 1 → -2147483648 ≤ i →
      forUp 1 top sweepBody fuel i s =
        some { s with sink := s.sink ++ callsOf (upFrom n i) } := by
  induction n with
  | zero =>
    intro fuel i s hf hi _
    obtain ⟨f, rfl⟩ : ∃ f, fuel = f + 1 := ⟨fuel - 1, by omega⟩
    have hlt : ¬ i ≤ top := by omega
    simp [forUp, hlt, upFrom, callsOf]
  | succ n ih =>
    intro fuel i s hf hi hmin
    obtain ⟨f, rfl⟩ : ∃ f, fuel = f + 1 := ⟨fuel - 1, by omega⟩
    have hle : i ≤ top := by omega
    have hw : wrapInt (i + 1) = i + 1 := wrapInt_eq (by omega) (by omega)
    rw [forUp, if_pos hle, hw, ih f (i + 1) (sweepBody i s) (by omega) (by omega) (by omega)]
    simp [sweepBody_eq, upFrom, callsOf, List.append_assoc]

theorem sweepKnob_eq (fuel : Nat) (hfuel : 102 ≤ fuel) (s : State) :
    sweepKnob fuel s = some { s with sink := s.sink ++ callsOf sweepValues } := by
  simp only [sweepKnob]
  rw [forDown_sweep 0 (by decide) 51 fuel 50 s (by omega) (by decide) (by decide)]
  simp only [Option.some_bind]
  rw [forUp_sweep 100 (by decide) 101 fuel 0 _ (by omega) (by decide) (by decide)]
  simp only [Option.some_bind]
  rw [forDown_sweep 50 (by decide) 51 fuel 100 _ (by omega) (by decide) (by decide)]
  simp [sweepValues, callsOf_append, List.append_assoc]

theorem sweepValues_facts :
    sweepValues.length = 203 ∧
    sweepValues.getD 0 0 = 50 ∧ sweepValues.getD 50 0 = 0 ∧
    sweepValues.getD 151 0 = 100 ∧ sweepValues.getD 202 0 = 50 ∧
    (∀ i < 50, sweepValues.getD (i + 1) 0 = sweepValues.getD i 0 - 1) ∧
    sweepValues.getD 51 0 = sweepValues.getD 50 0 ∧
    (∀ i < 151, 51 ≤ i → sweepValues.getD (i + 1) 0 = sweepValues.getD i 0 + 1) ∧
    sweepValues.getD 152 0 = sweepValues.getD 151 0 ∧
    (∀ i < 202, 152 ≤ i → sweepValues.getD (i + 1) 0 = sweepValues.getD i 0 - 1) ∧
    (∀ i < 202, Int.natAbs (sweepValues.getD (i + 1) 0 - sweepValues.getD i 0) ≤ 1) := by
  set_option maxRecDepth 100000 in decide

/-- C7, as stated, fails at the first turning point: the first loop of
`sweepKnob` ends with the value 0 (step 50) and the second loop starts with the
value 0 again (step 51), so these two consecutive values differ by 0, not by
one unit. -/
theorem C7_counterexample :
    (sweepKnob 102 (powerOn 2)).map (fun t => (t.sink.drop 100).take 4) =
      some [SinkCall.setSliderPosition 0, SinkCall.drawRotaryCounter 0,
            SinkCall.setSliderPosition 0, SinkCall.drawRotaryCounter 0] := by
  set_option maxRecDepth 100000 in decide

/-- C7 (amended): `sweepKnob` returns (fuel 102 is enough) and appends to the
sink a fixed sequence of calls that depends on no input and not on the state:
203 steps, each passing the same value to `setSliderPosition` and to
`drawRotaryCounter`; the values start at 50, descend by one per step to 0
(step 50), repeat 0 (step 51), ascend by one per step to 100 (step 151), repeat
100 (step 152), and descend by one per step to 50 (step 202, the last).  Two
consecutive values differ by at most one unit: by exactly one except at the
two turning points, where the value is repeated. -/
theorem C7_sweep_sequence (fuel : Nat) (hfuel : 102 ≤ fuel) (s : State) :
    sweepKnob fuel s = some { s with sink := s.sink ++ callsOf sweepValues } ∧
    sliderArgs (callsOf sweepValues) = sweepValues ∧
    counterArgs (callsOf sweepValues) = sweepValues ∧
    sweepValues.length = 203 ∧
    sweepValues.getD 0 0 = 50 ∧ sweepValues.getD 50 0 = 0 ∧
    sweepValues.getD 151 0 = 100 ∧ sweepValues.getD 202 0 = 50 ∧
    (∀ i < 50, sweepValues.getD (i + 1) 0 = sweepValues.getD i 0 - 1) ∧
    sweepValues.getD 51 0 = sweepValues.getD 50 0 ∧
    (∀ i < 151, 51 ≤ i → sweepValues.getD (i + 1) 0 = sweepValues.getD i 0 + 1) ∧
    sweepValues.getD 152 0 = sweepValues.getD 151 0 ∧
    (∀ i < 202, 152 ≤ i → sweepValues.getD (i + 1) 0 = sweepValues.getD i 0 - 1) ∧
    (∀ i < 202, Int.natAbs (sweepValues.getD (i + 1) 0 - sweepValues.getD i 0) ≤ 1) :=
  ⟨sweepKnob_eq fuel hfuel s, sliderArgs_callsOf _, counterArgs_callsOf _, sweepValues_facts⟩

/-- Witness of C7: with fuel 102, from the power-on state. -/
theorem C7_sweep_sequence_witness :
    sweepKnob 102 (powerOn 2) =
      some { powerOn 2 with sink := (powerOn 2).sink ++ callsOf sweepValues } :=
  (C7_sweep_sequence 102 (by decide) (powerOn 2)).1

/-! ## What reaches the render sink (C5, C10) -/

theorem sliderArgs_append (a b : List SinkCall) :
    sliderArgs (a ++ b) = sliderArgs a ++ sliderArgs b := by
  induction a with
  | nil => rfl
  | cons c cs ih => cases c <;> simp [sliderArgs, ih]

theorem counterArgs_append (a b : List SinkCall) :
    counterArgs (a ++ b) = counterArgs a ++ counterArgs b := by
  induction a with
  | nil => rfl
  | cons c cs ih => cases c <;> simp [counterArgs, ih]

theorem lastSlider_stepCalls (cs : List SinkCall) (v : Int) :
    lastSlider (cs ++ stepCalls v) = some v := by
  simp [lastSlider, sliderArgs_append, stepCalls, sliderArgs]

theorem lastDraw_stepCalls (cs : List SinkCall) (v : Int) :
    lastDraw (cs ++ stepCalls v) = some v := by
  simp [lastDraw, counterArgs_append, stepCalls, counterArgs]

theorem loop_counter (s : State) (x : Sample) :
    (loop s x).counter = if resetRuns s x then 50 else (loopEncoder s x).counter := by
  rw [loop, loopButton_counter]; rfl

theorem loopEncoder_sink (s : State) (x : Sample) :
    (loopEncoder s x).sink =
      s.sink ++ (if risingEdge s x then stepCalls (loopEncoder s x).counter else []) := by
  cases h : risingEdge s x
  · simp [(loopEncoder_idle s x h).2]
  · simp [loopEncoder_edge_sink s x h, stepCalls]

theorem loop_sink (s : State) (x : Sample) :
    (loop s x).sink =
      s.sink ++ (if risingEdge s x then stepCalls (loopEncoder s x).counter else []) ++
        (if resetRuns s x then stepCalls 50 else []) := by
  rw [loop, loopButton_sink, loopEncoder_sink]; rfl

theorem loop_sink_ends (s : State) (x : Sample)
    (h : risingEdge s x = true ∨ resetRuns s x = true) :
    ∃ pre, (loop s x).sink = pre ++ stepCalls (loop s x).counter := by
  rw [loop_sink, loop_counter]
  cases hr : resetRuns s x
  · have he : risingEdge s x = true := by
      rcases h with h | h
      · exact h
      · rw [hr] at h; cases h
    exact ⟨s.sink, by simp [he]⟩
  · exact ⟨s.sink ++ (if risingEdge s x then stepCalls (loopEncoder s x).counter else []),
      by simp⟩

theorem loop_quiet (s : State) (x : Sample)
    (he : risingEdge s x = false) (hr : resetRuns s x = false) :
    (loop s x).sink = s.sink ∧ (loop s x).counter = s.counter := by
  rw [loop_sink, loop_counter, he, hr]
  simp [(loopEncoder_idle s x he).1]

theorem loop_sync (s : State) (x : Sample)
    (h : lastSlider s.sink = some s.counter ∧ lastDraw s.sink = some s.counter) :
    lastSlider (loop s x).sink = some (loop s x).counter ∧
      lastDraw (loop s x).sink = some (loop s x).counter := by
  by_cases hq : risingEdge s x = true ∨ resetRuns s x = true
  · obtain ⟨pre, hpre⟩ := loop_sink_ends s x hq
    rw [hpre]
    exact ⟨lastSlider_stepCalls _ _, lastDraw_stepCalls _ _⟩
  · have he : risingEdge s x = false := by
      cases h1 : risingEdge s x
      · rfl
      · exact absurd (Or.inl h1) hq
    have hr : resetRuns s x = false := by
      cases h1 : resetRuns s x
      · rfl
      · exact absurd (Or.inr h1) hq
    obtain ⟨h1, h2⟩ := loop_quiet s x he hr
    rw [h1, h2]; exact h

theorem observe_sync (xs : List Sample) : ∀ s : State,
    (lastSlider s.sink = some s.counter ∧ lastDraw s.sink = some s.counter) →
    ∀ t ∈ observe s xs,
      lastSlider t.sink = some t.counter ∧ lastDraw t.sink = some t.counter := by
  induction xs with
  | nil => intro s _ t ht; simp [observe] at ht
  | cons x xs ih =>
    intro s h t ht
    have hs := loop_sync s x h
    simp only [observe, List.mem_cons] at ht
    rcases ht with rfl | ht
    · exact hs
    · exact ih (loop s x) hs t ht

theorem setup_eq (fuel : Nat) (hfuel : 102 ≤ fuel) (s : State) (x : Sample) :
    setup fuel s x =
      some { s with
        lastStateCLK := level x.clk
        sink := s.sink ++ SinkCall.drawRotaryCounter s.counter :: callsOf sweepValues } := by
  simp [setup, sweepKnob_eq fuel hfuel, drawRotaryCounter, digitalRead]

theorem sweepValues_getLast : sweepValues.getLast? = some 50 := by
  set_option maxRecDepth 100000 in decide

theorem setup_sync (pre : List SinkCall) :
    lastSlider (pre ++ callsOf sweepValues) = some 50 ∧
    lastDraw (pre ++ callsOf sweepValues) = some 50 := by
  constructor
  · rw [lastSlider, sliderArgs_append, sliderArgs_callsOf, List.getLast?_append,
      sweepValues_getLast]; rfl
  · rw [lastDraw, counterArgs_append, counterArgs_callsOf, List.getLast?_append,
      sweepValues_getLast]; rfl

/-- C5, as stated, fails: a clockwise tick at `counter = 100` leaves the counter
at 100, and the iteration still calls `setSliderPosition(100)` and
`drawRotaryCounter(100)`. -/
theorem C5_counterexample :
    (loop { powerOn 2 with counter := 100 } ⟨true, false, true⟩).counter = 100 ∧
    (loop { powerOn 2 with counter := 100 } ⟨true, false, true⟩).sink =
      [SinkCall.setSliderPosition 100, SinkCall.drawRotaryCounter 100] := by
  decide

/-- C5 (amended): the main loop pushes to the render sink on every rotation
event and every press, not only on change.  In an iteration of `loop` the
calls appended to the sink are: `setSliderPosition` and `drawRotaryCounter`
with the counter after the rotation, when a rising CLK edge is seen; then
both with 50, when the press fires.  So an iteration that sees no rising edge
and fires no press invokes neither and leaves the counter unchanged, and an
iteration that sees a rising edge or fires a press invokes both (last with
the counter value at the end of the iteration), also when that value equals
the value at the start. -/
theorem C5_sink_calls (s : State) (x : Sample) :
    (loop s x).sink =
      s.sink ++ (if risingEdge s x then stepCalls (loopEncoder s x).counter else []) ++
        (if resetRuns s x then stepCalls 50 else []) ∧
    (risingEdge s x = false → resetRuns s x = false →
      (loop s x).sink = s.sink ∧ (loop s x).counter = s.counter) ∧
    (risingEdge s x = true ∨ resetRuns s x = true →
      ∃ pre, (loop s x).sink = pre ++ stepCalls (loop s x).counter) :=
  ⟨loop_sink s x, loop_quiet s x, loop_sink_ends s x⟩

/-- Witness of C5: a falling CLK edge with the button up makes no call; a press
at `counter = 50` makes both calls with 50. -/
theorem C5_sink_calls_witness :
    (loop { powerOn 2 with lastStateCLK := 1 } ⟨false, true, true⟩).sink = [] ∧
    (loop (powerOn 2) ⟨false, false, false⟩).sink = [] ++ [] ++ stepCalls 50 :=
  ⟨((C5_sink_calls { powerOn 2 with lastStateCLK := 1 } ⟨false, true, true⟩).2.1
      (by decide) (by decide)).1,
   (C5_sink_calls (powerOn 2) ⟨false, false, false⟩).1⟩

/-- C10: the display never lags the counter.  `setup` returns (fuel 102 is
enough for its sweep) and at its end, and at the end of every iteration of
`loop` after it, for every input sequence, the value most recently passed to
`setSliderPosition` and the value most recently passed to `drawRotaryCounter`
both equal the current counter; and every iteration that changes the counter
ends its sink calls with both operations invoked with the new value. -/
theorem C10_display_in_sync (fuel : Nat) (hfuel : 102 ≤ fuel) (es : Int) (x0 : Sample) :
    (setup fuel (powerOn es) x0).isSome = true ∧
    (∀ s1, setup fuel (powerOn es) x0 = some s1 →
      (lastSlider s1.sink = some s1.counter ∧ lastDraw s1.sink = some s1.counter) ∧
      ∀ (xs : List Sample), ∀ t ∈ observe s1 xs,
        lastSlider t.sink = some t.counter ∧ lastDraw t.sink = some t.counter) ∧
    (∀ (s : State) (x : Sample), (loop s x).counter ≠ s.counter →
      ∃ pre, (loop s x).sink = pre ++ stepCalls (loop s x).counter) := by
  refine ⟨by rw [setup_eq fuel hfuel]; rfl, ?_, ?_⟩
  · intro s1 h1
    rw [setup_eq fuel hfuel] at h1
    have hs : lastSlider s1.sink = some s1.counter ∧ lastDraw s1.sink = some s1.counter := by
      cases h1
      exact setup_sync [SinkCall.drawRotaryCounter 50]
    exact ⟨hs, fun xs => observe_sync xs s1 hs⟩
  · intro s x hne
    apply loop_sink_ends
    by_contra hq
    have he : risingEdge s x = false := by
      cases h1 : risingEdge s x
      · rfl
      · exact absurd (Or.inl h1) hq
    have hr : resetRuns s x = false := by
      cases h1 : resetRuns s x
      · rfl
      · exact absurd (Or.inr h1) hq
    exact hne (loop_quiet s x he hr).2

/-- Witness of C10: with fuel 102 `setup` returns, and the display is in sync
after it and after a clockwise tick that follows. -/
theorem C10_display_in_sync_witness :
    (setup 102 (powerOn 2) ⟨false, false, true⟩).isSome = true ∧
    lastSlider (loop { powerOn 2 with
        sink := SinkCall.drawRotaryCounter 50 :: callsOf sweepValues }
      ⟨true, false, true⟩).sink = some 52 :=
  ⟨(C10_display_in_sync 102 (by decide) 2 ⟨false, false, true⟩).1,
   ((((C10_display_in_sync 102 (by decide) 2 ⟨false, false, true⟩).2.1
      { powerOn 2 with sink := SinkCall.drawRotaryCounter 50 :: callsOf sweepValues }
      (setup_eq 102 (by decide) (powerOn 2) ⟨false, false, true⟩)).2
      [⟨true, false, true⟩] _ (by simp [observe])).1).trans (by decide)⟩

/-! ## One reset per press (C3) -/

theorem resetDone_eq (s : State) (x : Sample) : resetDone s x = resetRuns s x := by
  unfold resetDone
  rw [loop, loopButton_sink]
  cases h : pressFires (loopEncoder s x) x <;> simp [resetRuns, h]

theorem loop_held (s : State) (x : Sample) (hb : s.btnPressed = true)
    (hx : x.sw = false) : loop s x = loopEncoder s x := by
  have h1 : (loopEncoder s x).btnPressed = true := by rw [loopEncoder_btnPressed, hb]
  simp [loop, loopButton, digitalRead, level, hx, h1]

theorem run_held (xs : List Sample) : ∀ s : State, s.btnPressed = true →
    (∀ y ∈ xs, y.sw = false) → (run s xs).btnPressed = true := by
  induction xs with
  | nil => intro s hb _; exact hb
  | cons x xs ih =>
    intro s _ hall
    have hx : x.sw = false := hall x (List.mem_cons_self x xs)
    exact ih (loop s x) (by rw [loop_btnPressed, hx]; rfl)
      (fun y hy => hall y (List.mem_cons_of_mem x hy))

theorem resetCount_eq_fallingEdges (xs : List Sample) : ∀ s : State,
    resetCount s xs = fallingEdges (!s.btnPressed) (xs.map Sample.sw) := by
  induction xs with
  | nil => intro s; rfl
  | cons x xs ih =>
    intro s
    simp only [resetCount, List.map_cons, fallingEdges, ih, loop_btnPressed, resetDone_eq,
      resetRuns_eq]
    cases x.sw <;> cases s.btnPressed <;> simp

theorem resetCount_held (xs : List Sample) : ∀ s : State, s.btnPressed = true →
    (∀ y ∈ xs, y.sw = false) → resetCount s xs = 0 := by
  induction xs with
  | nil => intro s _ _; rfl
  | cons x xs ih =>
    intro s hb hall
    have hx : x.sw = false := hall x (List.mem_cons_self x xs)
    have hrest : resetCount (loop s x) xs = 0 :=
      ih (loop s x) (by rw [loop_btnPressed, hx]; rfl)
        (fun y hy => hall y (List.mem_cons_of_mem x hy))
    simp [resetCount, resetDone_eq, resetRuns_eq, hb, hrest]

/-- C3: starting from the released state (`btnPressed = false`), the number of
iterations of `loop` that perform the reset to 50 (seen on the effect of the
iteration: the reset branch's two sink calls with 50 are made after the
encoder half) equals the number of high-to-low transitions of sw in the
sample sequence, a low first sample counting as a transition from the
released initial state.  An iteration that performs a reset ends with
`counter = 50`; one that does not leaves the counter and the sink as the
encoder half left them.  In particular `K ≥ 1` consecutive polls with sw low
(`x :: xs`) cause exactly one reset, performed in the first of them: in each
of the later polls the whole iteration is the encoder half alone, so the
button half changes neither the counter, nor the sink, nor the latch. -/
theorem C3_one_reset_per_press (s : State) (hb : s.btnPressed = false) :
    (∀ xs : List Sample, resetCount s xs = fallingEdges true (xs.map Sample.sw)) ∧
    (∀ (t : State) (y : Sample),
      (resetDone t y = true → (loop t y).counter = 50) ∧
      (resetDone t y = false → (loop t y).counter = (loopEncoder t y).counter ∧
        (loop t y).sink = (loopEncoder t y).sink)) ∧
    (∀ (x : Sample) (xs : List Sample), x.sw = false → (∀ y ∈ xs, y.sw = false) →
      resetCount s (x :: xs) = 1 ∧ resetDone s x = true ∧
      (loop s x).counter = 50 ∧
      (loop s x).sink = (loopEncoder s x).sink ++
        [SinkCall.setSliderPosition 50, SinkCall.drawRotaryCounter 50] ∧
      resetCount (loop s x) xs = 0 ∧
      (∀ (pre : List Sample) (y : Sample) (post : List Sample), xs = pre ++ y :: post →
        resetDone (run (loop s x) pre) y = false ∧
        loop (run (loop s x) pre) y = loopEncoder (run (loop s x) pre) y)) := by
  refine ⟨?_, ?_, ?_⟩
  · intro xs
    rw [resetCount_eq_fallingEdges, hb]; rfl
  · intro t y
    constructor
    · intro h
      rw [resetDone_eq] at h
      rw [loop_counter, h]; rfl
    · intro h
      rw [resetDone_eq] at h
      rw [loop_counter, loop_sink, loopEncoder_sink, h]
      simp
  · intro x xs hx hall
    have hlatch : (loop s x).btnPressed = true := by rw [loop_btnPressed, hx]; rfl
    have hrest : resetCount (loop s x) xs = 0 := resetCount_held xs (loop s x) hlatch hall
    have hr : resetRuns s x = true := by rw [resetRuns_eq, hb, hx]; rfl
    have hd : resetDone s x = true := by rw [resetDone_eq, hr]
    refine ⟨?_, hd, ?_, ?_, hrest, ?_⟩
    · simp [resetCount, hd, hrest]
    · rw [loop_counter, hr]; rfl
    · simpa [resetDone] using hd
    · intro pre y post hxs
      have hpre : ∀ z ∈ pre, z.sw = false := fun z hz =>
        hall z (by rw [hxs]; exact List.mem_append_left _ hz)
      have hy : y.sw = false := hall y (by rw [hxs]; simp)
      have hbp : (run (loop s x) pre).btnPressed = true :=
        run_held pre (loop s x) hlatch hpre
      refine ⟨?_, loop_held _ y hbp hy⟩
      rw [resetDone_eq, resetRuns_eq, hbp]; rfl

/-- Witness of C3: press, hold, release, press again gives two resets.  Three
polls with sw low, the second carrying a clockwise edge, give one reset, in
the first poll: the run ends at 52 with the sink showing one reset followed
by the rotation. -/
theorem C3_one_reset_per_press_witness :
    resetCount (powerOn 2)
      [⟨false, false, false⟩, ⟨true, false, false⟩, ⟨false, false, true⟩,
       ⟨true, true, false⟩] = 2 ∧
    resetCount (powerOn 2)
      [⟨false, false, false⟩, ⟨true, false, false⟩, ⟨false, false, false⟩] = 1 ∧
    (run (powerOn 2)
      [⟨false, false, false⟩, ⟨true, false, false⟩, ⟨false, false, false⟩]).counter = 52 ∧
    (run (powerOn 2)
      [⟨false, false, false⟩, ⟨true, false, false⟩, ⟨false, false, false⟩]).sink =
      [SinkCall.setSliderPosition 50, SinkCall.drawRotaryCounter 50,
       SinkCall.setSliderPosition 52, SinkCall.drawRotaryCounter 52] :=
  ⟨((C3_one_reset_per_press (powerOn 2) rfl).1 _).trans (by decide),
   ((C3_one_reset_per_press (powerOn 2) rfl).2.2 ⟨false, false, false⟩
      [⟨true, false, false⟩, ⟨false, false, false⟩] rfl (by decide)).1,
   by decide, by decide⟩

/-! ## Ticks there and back (C6) -/

theorem run_append (s : State) (xs ys : List Sample) :
    run s (xs ++ ys) = run (run s xs) ys := by
  simp [run, List.foldl_append]

theorem run_encoderSpeed (xs : List Sample) : ∀ s : State,
    (run s xs).encoderSpeed = s.encoderSpeed := by
  induction xs with
  | nil => intro s; rfl
  | cons x xs ih => intro s; simp only [run, List.foldl_cons] at ih ⊢; rw [ih, loop_encoderSpeed]

theorem resetRuns_sw_high (s : State) (x : Sample) (h : x.sw = true) :
    resetRuns s x = false := by
  rw [resetRuns_eq, h]; simp

theorem loop_lastStateCLK (s : State) (x : Sample) :
    (loop s x).lastStateCLK = level x.clk := by
  rw [loop, loopButton_lastStateCLK, loopEncoder_lastStateCLK]

theorem loop_low (s : State) (d : Bool) :
    (loop s ⟨false, d, true⟩).counter = s.counter := by
  rw [loop_counter, resetRuns_sw_high _ _ rfl]
  exact (loopEncoder_idle s _ (by simp [risingEdge, digitalRead, level])).1

theorem loop_cw (s : State) (hl : s.lastStateCLK = 0) (h0 : 0 ≤ s.counter)
    (hes : 1 ≤ s.encoderSpeed) (h : s.counter + s.encoderSpeed ≤ 100) :
    (loop s ⟨true, false, true⟩).counter = s.counter + s.encoderSpeed := by
  have ha : wrapInt (s.counter + s.encoderSpeed) = s.counter + s.encoderSpeed :=
    wrapInt_eq (by omega) (by omega)
  rw [loop_counter, resetRuns_sw_high _ _ rfl]
  simp only [loopEncoder, setSliderPosition, drawRotaryCounter, digitalRead, level, hl, ha]
  split_ifs
  all_goals simp_all
  all_goals omega

theorem loop_ccw (s : State) (hl : s.lastStateCLK = 0) (h100 : s.counter ≤ 100)
    (hes : 1 ≤ s.encoderSpeed) (h : 0 ≤ s.counter - s.encoderSpeed) :
    (loop s ⟨true, true, true⟩).counter = s.counter - s.encoderSpeed := by
  have hb : wrapInt (s.counter - s.encoderSpeed) = s.counter - s.encoderSpeed :=
    wrapInt_eq (by omega) (by omega)
  rw [loop_counter, resetRuns_sw_high _ _ rfl]
  simp only [loopEncoder, setSliderPosition, drawRotaryCounter, digitalRead, level, hl, hb]
  split_ifs
  all_goals simp_all
  all_goals omega

theorem run_ticks_cw (n : Nat) : ∀ s : State, 0 ≤ s.counter → 1 ≤ s.encoderSpeed →
    s.counter + n * s.encoderSpeed ≤ 100 →
    (run s (ticks false n)).counter = s.counter + n * s.encoderSpeed := by
  induction n with
  | zero => intro s _ _ _; simp [ticks, run]
  | succ n ih =>
    intro s h0 hes h
    have hn : (0 : Int) ≤ (n : Int) * s.encoderSpeed :=
      Int.mul_nonneg (Int.ofNat_nonneg n) (by omega)
    have hexp : ((n + 1 : Nat) : Int) * s.encoderSpeed
        = (n : Int) * s.encoderSpeed + s.encoderSpeed := by push_cast; ring
    rw [hexp] at h ⊢
    have h1 : (loop s ⟨false, false, true⟩).counter = s.counter := loop_low s false
    have he1 : (loop s ⟨false, false, true⟩).encoderSpeed = s.encoderSpeed :=
      loop_encoderSpeed _ _
    have h2 := loop_cw (loop s ⟨false, false, true⟩) (loop_lastStateCLK _ _)
      (by rw [h1]; exact h0) (by rw [he1]; exact hes) (by rw [h1, he1]; omega)
    rw [h1, he1] at h2
    have he2 : (loop (loop s ⟨false, false, true⟩) ⟨true, false, true⟩).encoderSpeed
        = s.encoderSpeed := by rw [loop_encoderSpeed, he1]
    have h3 := ih (loop (loop s ⟨false, false, true⟩) ⟨true, false, true⟩)
      (by rw [h2]; omega) (by rw [he2]; exact hes) (by rw [h2, he2]; omega)
    rw [h2, he2] at h3
    show (run (loop (loop s ⟨false, false, true⟩) ⟨true, false, true⟩)
      (ticks false n)).counter = _
    rw [h3]; ring

theorem run_ticks_ccw (n : Nat) : ∀ s : State, s.counter ≤ 100 → 1 ≤ s.encoderSpeed →
    0 ≤ s.counter - n * s.encoderSpeed →
    (run s (ticks true n)).counter = s.counter - n * s.encoderSpeed := by
  induction n with
  | zero => intro s _ _ _; simp [ticks, run]
  | succ n ih =>
    intro s h100 hes h
    have hn : (0 : Int) ≤ (n : Int) * s.encoderSpeed :=
      Int.mul_nonneg (Int.ofNat_nonneg n) (by omega)
    have hexp : ((n + 1 : Nat) : Int) * s.encoderSpeed
        = (n : Int) * s.encoderSpeed + s.encoderSpeed := by push_cast; ring
    rw [hexp] at h ⊢
    have h1 : (loop s ⟨false, true, true⟩).counter = s.counter := loop_low s true
    have he1 : (loop s ⟨false, true, true⟩).encoderSpeed = s.encoderSpeed :=
      loop_encoderSpeed _ _
    have h2 := loop_ccw (loop s ⟨false, true, true⟩) (loop_lastStateCLK _ _)
      (by rw [h1]; exact h100) (by rw [he1]; exact hes) (by rw [h1, he1]; omega)
    rw [h1, he1] at h2
    have he2 : (loop (loop s ⟨false, true, true⟩) ⟨true, true, true⟩).encoderSpeed
        = s.encoderSpeed := by rw [loop_encoderSpeed, he1]
    have h3 := ih (loop (loop s ⟨false, true, true⟩) ⟨true, true, true⟩)
      (by rw [h2]; omega) (by rw [he2]; exact hes) (by rw [h2, he2]; omega)
    rw [h2, he2] at h3
    show (run (loop (loop s ⟨false, true, true⟩) ⟨true, true, true⟩)
      (ticks true n)).counter = _
    rw [h3]; ring

/-- C6: for every state with `0 ≤ counter ≤ 100`, every `encoderSpeed ≥ 1` and
every `N` with `counter + N * encoderSpeed ≤ 100`, feeding `loop` `N` clockwise
ticks and then `N` counter-clockwise ticks (each a CLK-low poll followed by the
rising-CLK poll, sw high throughout) takes the counter to
`counter + N * encoderSpeed` and then back to its starting value. -/
theorem C6_round_trip (s : State) (N : Nat) (h0 : 0 ≤ s.counter) (h100 : s.counter ≤ 100)
    (hes : 1 ≤ s.encoderSpeed) (h : s.counter + N * s.encoderSpeed ≤ 100) :
    (run s (ticks false N)).counter = s.counter + N * s.encoderSpeed ∧
    (run s (ticks false N ++ ticks true N)).counter = s.counter := by
  have h1 := run_ticks_cw N s h0 hes h
  refine ⟨h1, ?_⟩
  have he := run_encoderSpeed (ticks false N) s
  have h2 := run_ticks_ccw N (run s (ticks false N)) (by rw [h1]; exact h)
    (by rw [he]; exact hes) (by rw [h1, he]; omega)
  rw [run_append, h2, h1, he]; ring

/-- Witness of C6: from 50 with step 2, three ticks up reach 56 and three ticks
down return to 50. -/
theorem C6_round_trip_witness :
    (run (powerOn 2) (ticks false 3)).counter = 56 ∧
    (run (powerOn 2) (ticks false 3 ++ ticks true 3)).counter = 50 :=
  ⟨(C6_round_trip (powerOn 2) 3 (by decide) (by decide) (by decide) (by decide)).1.trans
      (by decide),
   (C6_round_trip (powerOn 2) 3 (by decide) (by decide) (by decide) (by decide)).2⟩

/-! ## Between two rising edges (C8) -/

theorem stateAt_succ (xs : List Sample) : ∀ (s : State) (k : Nat),
    stateAt s xs (k + 1) =
      match xs.get? k with
      | some x => loop (stateAt s xs k) x
      | none => stateAt s xs k := by
  induction xs with
  | nil => intro s k; simp [stateAt, run]
  | cons y ys ih =>
    intro s k
    cases k with
    | zero => simp [stateAt, run]
    | succ k =>
      have h := ih (loop s y) k
      simp only [stateAt, run, List.take_succ_cons, List.foldl_cons, List.get?_cons_succ] at h ⊢
      exact h

theorem stateAt_quiet (s : State) (xs : List Sample) (k : Nat)
    (he : edgeAt s xs k = false) (hp : pressAt s xs k = false) :
    (stateAt s xs (k + 1)).counter = (stateAt s xs k).counter := by
  rw [stateAt_succ]
  cases hx : xs.get? k with
  | none => rfl
  | some x =>
    simp only [edgeAt, pressAt, hx] at he hp
    exact (loop_quiet _ x he hp).2

theorem stateAt_between (s : State) (xs : List Sample) (i j : Nat)
    (hq : ∀ k < j, i < k → edgeAt s xs k = false ∧ pressAt s xs k = false) :
    ∀ d, i + 1 + d ≤ j → (stateAt s xs (i + 1 + d)).counter = (stateAt s xs (i + 1)).counter := by
  intro d
  induction d with
  | zero => intro _; rfl
  | succ d ih =>
    intro hd
    have hk := hq (i + 1 + d) (by omega) (by omega)
    rw [show i + 1 + (d + 1) = (i + 1 + d) + 1 by omega, stateAt_quiet s xs _ hk.1 hk.2]
    exact ih (by omega)

/-- C8, as stated, fails when the button is pressed between the two edges.
From power-on with step 2: iterations 2 and 4 are consecutive rising CLK
edges, the counter is 54 after iteration 2, iteration 3 (no edge, sw low)
resets it to 50, and the two values observed between the edges differ by 4,
more than the step. -/
theorem C8_counterexample :
    (powerOn 2).encoderSpeed = 2 ∧
    edgeAt (powerOn 2)
      [⟨true, false, true⟩, ⟨false, false, true⟩, ⟨true, false, true⟩,
       ⟨false, false, false⟩, ⟨true, false, false⟩] 2 = true ∧
    edgeAt (powerOn 2)
      [⟨true, false, true⟩, ⟨false, false, true⟩, ⟨true, false, true⟩,
       ⟨false, false, false⟩, ⟨true, false, false⟩] 3 = false ∧
    edgeAt (powerOn 2)
      [⟨true, false, true⟩, ⟨false, false, true⟩, ⟨true, false, true⟩,
       ⟨false, false, false⟩, ⟨true, false, false⟩] 4 = true ∧
    (stateAt (powerOn 2)
      [⟨true, false, true⟩, ⟨false, false, true⟩, ⟨true, false, true⟩,
       ⟨false, false, false⟩, ⟨true, false, false⟩] 3).counter = 54 ∧
    (stateAt (powerOn 2)
      [⟨true, false, true⟩, ⟨false, false, true⟩, ⟨true, false, true⟩,
       ⟨false, false, false⟩, ⟨true, false, false⟩] 4).counter = 50 := by
  decide

/-- C8 (amended): for every input sequence fed to `loop` and `encoderSpeed ≥ 1`,
if iterations `i < j` are two consecutive iterations that see a rising CLK
edge (no iteration strictly between them sees one) and no press fires in an
iteration strictly between them, then the counter values observed at any two
points after iteration `i` and before iteration `j` are equal, so they differ
by at most the step. -/
theorem C8_between_edges (s : State) (xs : List Sample) (i j m n : Nat)
    (hes : 1 ≤ s.encoderSpeed)
    (_hi : edgeAt s xs i = true) (_hj : edgeAt s xs j = true)
    (hq : ∀ k < j, i < k → edgeAt s xs k = false ∧ pressAt s xs k = false)
    (hm : i < m ∧ m ≤ j) (hn : i < n ∧ n ≤ j) :
    (stateAt s xs m).counter = (stateAt s xs n).counter ∧
    ((stateAt s xs m).counter - (stateAt s xs n).counter).natAbs ≤ s.encoderSpeed := by
  have hbm := stateAt_between s xs i j hq (m - (i + 1)) (by omega)
  have hbn := stateAt_between s xs i j hq (n - (i + 1)) (by omega)
  rw [show i + 1 + (m - (i + 1)) = m by omega] at hbm
  rw [show i + 1 + (n - (i + 1)) = n by omega] at hbn
  have heq : (stateAt s xs m).counter = (stateAt s xs n).counter := by rw [hbm, hbn]
  refine ⟨heq, ?_⟩
  rw [heq]; simp; omega

/-- Witness of C8: two clockwise ticks from power-on with idle polls between
them; the counter stays at 52 between the edges. -/
theorem C8_between_edges_witness :
    (stateAt (powerOn 2)
      [⟨true, false, true⟩, ⟨true, true, true⟩, ⟨false, true, true⟩,
       ⟨true, false, true⟩] 1).counter = 52 ∧
    (stateAt (powerOn 2)
      [⟨true, false, true⟩, ⟨true, true, true⟩, ⟨false, true, true⟩,
       ⟨true, false, true⟩] 1).counter =
    (stateAt (powerOn 2)
      [⟨true, false, true⟩, ⟨true, true, true⟩, ⟨false, true, true⟩,
       ⟨true, false, true⟩] 3).counter :=
  ⟨by decide,
   (C8_between_edges (powerOn 2)
      [⟨true, false, true⟩, ⟨true, true, true⟩, ⟨false, true, true⟩, ⟨true, false, true⟩]
      0 3 1 3 (by decide) (by decide) (by decide) (by decide) (by decide) (by decide)).1⟩

end KY040
